import Mathlib

/-!
Verification of the code-intelligence core of the simplicityhl language
server: document store, coordinate translation, call resolution,
documentation extraction and completion classification, shallowly embedded
from the Rust sources (`src/backend.rs`, `src/utils.rs`,
`src/completion/mod.rs`).  Machine integers (`u32`) are modelled as `Nat`
with explicit `% 2^32` wrapping where the Rust release-mode arithmetic can
wrap.  Strings are Lean `String`s; the string primitives used by the code
(trim, split, starts-with, ...) are re-implemented by structural recursion
over `String.data` so that all definitions evaluate by `rfl`/`decide`.
Alphanumeric/whitespace character classes are modelled on ASCII, which is
the fragment the programme's own token grammar uses.
-/

/-- `2^32`, the modulus of Rust's `u32` arithmetic. -/
def U32_MOD : Nat := 4294967296

/-- Wrapping decrement in `u32` arithmetic (`x - 1` on a `u32` in release
mode: `0` wraps to `2^32 - 1`). -/
def u32Sub1 (x : Nat) : Nat := (x + (U32_MOD - 1)) % U32_MOD

/-- Editor-facing 0-based position (`tower_lsp_server::lsp_types::Position`,
fields are `u32`). -/
structure LspPos where
  line : Nat
  character : Nat
deriving DecidableEq, Repr

/-- Compiler-side 1-based position (`simplicityhl::error::Position`, fields
are `NonZeroUsize`; the stored `Nat` is the `.get()` value). -/
structure SPos where
  line : Nat
  col : Nat
deriving DecidableEq, Repr

/-- The well-formedness invariant of `SPos`: both coordinates are the value
of a `NonZeroUsize`, hence positive. -/
def SPos.WF (p : SPos) : Prop := 0 < p.line ∧ 0 < p.col

/-- Compiler-side inclusive source range (`simplicityhl::error::Span`). -/
structure Span where
  start : SPos
  endP : SPos
deriving DecidableEq, Repr

/-- Well-formed span: both endpoints are well-formed positions. -/
def Span.WF (s : Span) : Prop := s.start.WF ∧ s.endP.WF

/-- `utils.rs::position_le`. -/
def position_le (a b : SPos) : Bool :=
  decide (a.line < b.line) || (a.line == b.line && decide (a.col ≤ b.col))

/-- `utils.rs::position_ge`. -/
def position_ge (a b : SPos) : Bool :=
  decide (a.line > b.line) || (a.line == b.line && decide (a.col ≥ b.col))

/-- `utils.rs::span_contains`: `a` contains `b`. -/
def span_contains (a b : Span) : Bool :=
  position_le a.start b.start && position_ge a.endP b.endP

/-- `utils.rs::span_to_positions`: convert a compiler span to a pair of
0-based editor positions.  Each coordinate is first narrowed to `u32`
(`u32::try_from`, failing with an overflow error), then decremented; the
decrement is the release-mode wrapping `u32` subtraction. -/
def span_to_positions (s : Span) : Except String (LspPos × LspPos) :=
  if U32_MOD ≤ s.start.line then .error "line overflow"
  else if U32_MOD ≤ s.start.col then .error "col overflow"
  else if U32_MOD ≤ s.endP.line then .error "line overflow"
  else if U32_MOD ≤ s.endP.col then .error "col overflow"
  else .ok
    (⟨u32Sub1 s.start.line, u32Sub1 s.start.col⟩,
     ⟨u32Sub1 s.endP.line, u32Sub1 s.endP.col⟩)

/-- `utils.rs::position_to_span`: build a zero-width span from a single
editor position.  The `+ 1` is `u32` addition (wrapping in release mode),
and `NonZeroUsize::new` fails exactly when the wrapped sum is `0`. -/
def position_to_span (p : LspPos) : Except String Span :=
  let sl := (p.line + 1) % U32_MOD
  let sc := (p.character + 1) % U32_MOD
  if sl = 0 then .error "start line must be non-zero"
  else if sc = 0 then .error "start column must be non-zero"
  else .ok ⟨⟨sl, sc⟩, ⟨sl, sc⟩⟩

/-- `utils.rs::positions_to_span`: build a span from a pair of editor
positions, converting each coordinate as in `position_to_span`. -/
def positions_to_span (ps : LspPos × LspPos) : Except String Span :=
  let sl := (ps.1.line + 1) % U32_MOD
  let sc := (ps.1.character + 1) % U32_MOD
  let el := (ps.2.line + 1) % U32_MOD
  let ec := (ps.2.character + 1) % U32_MOD
  if sl = 0 then .error "start line must be non-zero"
  else if sc = 0 then .error "start column must be non-zero"
  else if el = 0 then .error "end line must be non-zero"
  else if ec = 0 then .error "end column must be non-zero"
  else .ok ⟨⟨sl, sc⟩, ⟨el, ec⟩⟩

/-- ASCII model of the whitespace class used by Rust's `str::trim`. -/
def isWS (c : Char) : Bool := c = ' ' || c = '\t' || c = '\r' || c = '\n'

/-- Model of Rust `str::trim_end` (drop trailing whitespace). -/
def trimRightS (s : String) : String :=
  ⟨(s.data.reverse.dropWhile isWS).reverse⟩

/-- Model of Rust `str::trim` (drop leading and trailing whitespace). -/
def trimS (s : String) : String :=
  ⟨((s.data.dropWhile isWS).reverse.dropWhile isWS).reverse⟩

/-- Model of Rust `str::starts_with`. -/
def startsWithS (s pre : String) : Bool := pre.data.isPrefixOf s.data

/-- Model of Rust `str::ends_with`. -/
def endsWithS (s suf : String) : Bool := suf.data.isSuffixOf s.data

/-- Split a character list at every separator character (model of Rust
`str::split` with a character predicate); always returns at least one
(possibly empty) segment, like the Rust iterator. -/
def splitChars (p : Char → Bool) : List Char → List (List Char)
  | [] => [[]]
  | c :: cs =>
    if p c then [] :: splitChars p cs
    else
      match splitChars p cs with
      | [] => [[c]]
      | g :: gs => (c :: g) :: gs

/-- The separator predicate of the completion classifier: any character
that is neither alphanumeric nor `':'`. -/
def isSepChar (c : Char) : Bool := !(c.isAlphanum || c == ':')

/-- Model of `prefix.rsplit(|c| !c.is_alphanumeric() && c != ':').next()`:
the final segment of the split, i.e. the text after the last separator. -/
def rsplitNext (s : String) : Option String :=
  ((splitChars isSepChar s.data).map (fun g => (⟨g⟩ : String))).getLast?

/-- Split a text into its rope lines: every line keeps its trailing
newline, and a text ending in a newline has a final empty line, exactly as
`ropey::Rope::lines()` counts lines. -/
def ropeLinesAux : List Char → List (List Char)
  | [] => [[]]
  | c :: cs =>
    if c = '\n' then ('\n' :: []) :: ropeLinesAux cs
    else
      match ropeLinesAux cs with
      | [] => [[c]]
      | l :: ls => (c :: l) :: ls

/-- The lines of a text buffer, in ropey's line-splitting convention. -/
def ropeLines (s : String) : List String :=
  (ropeLinesAux s.data).map (fun l => (⟨l⟩ : String))

/-- The kind-and-name of a call expression (`simplicityhl::parse::CallName`):
a primitive jet, a type cast, one of the builtin control constructs
(assert/panic/debug/unwrap/fold/...), or a user-defined function. -/
inductive CallName where
  | jet : String → CallName
  | typeCast : String → CallName
  | builtin : String → CallName
  | custom : String → CallName
deriving DecidableEq, Repr

mutual
/-- A body expression (`simplicityhl::parse::ExprTree` view): either a call
node carrying its name and span, or any other expression node; both carry
their child expressions in source order. -/
inductive Expr where
  | call : CallName → Span → ExprList → Expr
  | other : Span → ExprList → Expr
/-- A list of child expressions (kept as its own inductive so that all
recursions below are structural). -/
inductive ExprList where
  | nil : ExprList
  | cons : Expr → ExprList → ExprList
end

mutual
/-- Pre-order traversal of an expression tree: the node itself, then the
pre-order traversals of its children left to right
(`miniscript::iter::TreeLike::pre_order_iter`). -/
def preOrder : Expr → List Expr
  | .call n s args => .call n s args :: preOrderL args
  | .other s args => .other s args :: preOrderL args
/-- Pre-order traversal of a list of sibling expressions. -/
def preOrderL : ExprList → List Expr
  | .nil => []
  | .cons e es => preOrder e ++ preOrderL es
end

/-- The `filter_map` step of `find_related_call`: keep a node only if it is
a `Call`, and return its name and span. -/
def exprCallInfo : Expr → Option (CallName × Span)
  | .call n s _ => some (n, s)
  | .other _ _ => none

/-- A parsed function declaration (`simplicityhl::parse::Function`): its
name, its declaration span, and its body expression. -/
structure Function where
  name : String
  span : Span
  body : Expr

/-- An item of a parsed programme (`simplicityhl::parse::Item`): a function
declaration or anything else (type alias, module marker). -/
inductive Item where
  | function : Function → Item
  | other : Item

/-- A parsed programme (`simplicityhl::parse::Program`): its ordered items. -/
structure Program where
  items : List Item

/-- The function declarations of a programme in file order
(the `filter_map` in `create_document`). -/
def functionItems (p : Program) : List Function :=
  p.items.filterMap (fun i => match i with
    | .function f => some f
    | .other => none)

/-- `backend.rs::find_related_call`: select the first function whose span
contains the token span, then take the last call node, in pre-order, of its
body whose span contains the token span. -/
def find_related_call (functions : List Function) (tokenSpan : Span) :
    Option (CallName × Span) :=
  match functions.find? (fun f => span_contains f.span tokenSpan) with
  | none => none
  | some f =>
    (((preOrder f.body).filterMap exprCallInfo).filter
      (fun c => span_contains c.2 tokenSpan)).getLast?

/-- The markdown block-line test of the doc reflow loop
(`get_comments_from_lines`): the trimmed line is empty or starts with a
heading/list/quote/fence marker or with four spaces. -/
def isMdBlock (trimmed : String) : Bool :=
  trimmed.data.isEmpty
  || startsWithS trimmed "#"
  || startsWithS trimmed "-"
  || startsWithS trimmed "*"
  || startsWithS trimmed ">"
  || startsWithS trimmed "```"
  || startsWithS trimmed "    "

/-- The reflow loop of `get_comments_from_lines`, with the output string
buffer and the `prev_line_was_text` flag carried through the fold. -/
def reflowGo (res : List Char) (prevText : Bool) : List String → List Char
  | [] => res
  | l :: ls =>
    let t := (trimS l).data
    let b := isMdBlock (trimS l)
    let res' :=
      if res.isEmpty then res ++ t
      else if prevText && !b then res ++ (' ' :: t)
      else res ++ ('\n' :: t)
    reflowGo res' (!t.isEmpty && !b) ls

/-- The reflow step of `get_comments_from_lines`, applied to the collected
doc-comment lines in source order. -/
def reflow (lines : List String) : String := ⟨reflowGo [] false lines⟩

/-- Strip a recognised doc-comment line: remove the `"///"` marker and the
trailing whitespace (`strip_prefix("///")` followed by `trim_end`). -/
def stripDocLine (text : String) : String := trimRightS ⟨text.data.drop 3⟩

/-- The backward scan of `get_comments_from_lines`: walk the lines above
index `line` from nearest to farthest, collecting stripped `"///"` lines,
and stop at the first missing or non-doc line.  The result is in backward
order, like the `lines` vector before its `reverse()`. -/
def collectDocLinesAux (rope : List String) : Nat → List String
  | 0 => []
  | i + 1 =>
    match rope.get? i with
    | none => []
    | some text =>
      if startsWithS text "///" then stripDocLine text :: collectDocLinesAux rope i
      else []

/-- `backend.rs::get_comments_from_lines`: extract and reflow the
doc-comment block immediately above line index `line`. -/
def get_comments_from_lines (line : Nat) (rope : List String) : String :=
  if line = 0 then "" else reflow (collectDocLinesAux rope line).reverse

/-- The per-document cached state (`backend.rs::Document`): the parsed
functions, the name-to-documentation map, and the raw text buffer. -/
structure Document where
  functions : List Function
  functions_docs : String → Option String
  text : String

/-- The documentation-start-line computation of `create_document`:
`u32::try_from(line).unwrap_or_default() - 1`, i.e. the 1-based start line
narrowed to `u32` with a silent fallback to `0` on overflow, then the
release-mode wrapping `u32` decrement. -/
def doc_start_line (line1 : Nat) : Nat :=
  u32Sub1 (if line1 < U32_MOD then line1 else 0)

/-- `HashMap::insert` on the name-to-documentation map: later insertions
overwrite earlier ones. -/
def insertDoc (m : String → Option String) (k v : String) :
    String → Option String :=
  fun n => if n = k then some v else m n

/-- The per-function step of `create_document`: push the function and
insert its extracted documentation under its name. -/
def createStep (d : Document) (f : Function) : Document :=
  { d with
    functions := d.functions ++ [f]
    functions_docs :=
      insertDoc d.functions_docs f.name
        (get_comments_from_lines (doc_start_line f.span.start.line)
          (ropeLines d.text)) }

/-- `backend.rs::create_document`: build a fresh `Document` from a parsed
programme and the full text, folding `createStep` over the function items
in file order. -/
def create_document (p : Program) (text : String) : Document :=
  (functionItems p).foldl createStep
    { functions := [], functions_docs := fun _ => none, text := text }

/-- A positioned error of the compiler frontend
(`simplicityhl::error::RichError`): a span and a display message. -/
structure RichError where
  span : Span
  message : String

/-- The opaque compiler frontend consumed by the server: the parse step and
the semantic-analysis step (`parse::Program::parse_from_str` and
`ast::Program::analyze(..).with_file(..)`). -/
structure Frontend where
  parse : String → Except RichError Program
  analyze : Program → String → Option RichError

/-- `backend.rs::parse_program`: run the parse step; on failure return the
error and no document, on success return the analysis error (if any) and a
fresh document built from the syntactic parse. -/
def parse_program (fe : Frontend) (text : String) :
    Option RichError × Option Document :=
  match fe.parse text with
  | .error e => (some e, none)
  | .ok p => (fe.analyze p text, some (create_document p text))

/-- A published diagnostic: a 0-based editor range and a message. -/
structure LspDiagnostic where
  rangeStart : LspPos
  rangeEnd : LspPos
  message : String

/-- The client-visible effects of an edit event: a diagnostics publication
or an error log entry. -/
inductive ServerAction where
  | publishDiagnostics : String → List LspDiagnostic → ServerAction
  | logError : String → ServerAction

/-- The concurrent document store, keyed by URI. -/
abbrev Store := String → Option Document

/-- Insert (or replace) the entry of one URI in the store. -/
def storeInsert (st : Store) (uri : String) (d : Document) : Store :=
  fun u => if u = uri then some d else st u

/-- `backend.rs::on_change`: re-parse the full text; on syntactic success
insert the brand-new document, on syntactic failure patch only the `text`
field of an existing document (and store nothing otherwise); then publish
an empty diagnostic list on full success, a single positioned diagnostic on
a parse or analysis error, or log and skip publication when the error span
cannot be translated. -/
def on_change (fe : Frontend) (st : Store) (uri : String) (text : String) :
    Store × List ServerAction :=
  let pr := parse_program fe text
  let st' : Store :=
    match pr.2 with
    | some doc => storeInsert st uri doc
    | none =>
      match st uri with
      | some doc => storeInsert st uri { doc with text := text }
      | none => st
  let actions : List ServerAction :=
    match pr.1 with
    | none => [.publishDiagnostics uri []]
    | some e =>
      match span_to_positions e.span with
      | .error msg => [.logError msg]
      | .ok (s, en) => [.publishDiagnostics uri [⟨s, en, e.message⟩]]
  (st', actions)

/-- The completion candidate sets held by the provider
(`completion/mod.rs::CompletionProvider`); candidates are modelled by their
display labels.  The jet and builtin sets are parameters (the jet set is
generated from the external compiler's jet enumeration). -/
structure CompletionProvider where
  jets : List String
  builtin : List String
  modules : List String

/-- `CompletionProvider::new`: the module completions are the fixed
`jet`/`param`/`witness` namespaces. -/
def CompletionProvider.new (jets builtin : List String) : CompletionProvider :=
  ⟨jets, builtin, ["jet", "param", "witness"]⟩

/-- `CompletionProvider::get_function_completions`: one candidate per
user-defined function, labelled by the function's name. -/
def get_function_completions (functions : List Function) : List String :=
  functions.map Function.name

/-- The "General" candidate set served by `Backend::completion` when no
namespace context applies: the document's functions, then the builtin
constructs, then the namespace modules. -/
def generalCompletions (cp : CompletionProvider) (doc : Document) : List String :=
  get_function_completions doc.functions ++ cp.builtin ++ cp.modules

/-- `Backend::completion` (`backend.rs` lines 146-201): guard on a known
document, line and in-line character offset, then classify the text before
the cursor: a final segment starting with a malformed `"jet:::"` yields the
empty list, a `"jet::"` segment yields the jet set, and otherwise control
falls through to the General set; the bare-colon branch is only reachable
when the rsplit yields no segment at all. -/
def backendCompletion (cp : CompletionProvider) (st : Store) (uri : String)
    (pos : LspPos) : Except String (List String) :=
  match st uri with
  | none => .ok []
  | some doc =>
    match (ropeLines doc.text).get? pos.line with
    | none => .ok []
    | some line =>
      if pos.character ≤ line.data.length then
        let pfx : String := ⟨line.data.take pos.character⟩
        let trimmedPfx := trimRightS pfx
        match rsplitNext trimmedPfx with
        | some last =>
          if startsWithS last "jet:::" then .ok []
          else if last == "jet::" || startsWithS last "jet::" then .ok cp.jets
          else .ok (generalCompletions cp doc)
        | none =>
          if endsWithS trimmedPfx ":" then .ok []
          else .ok (generalCompletions cp doc)
      else .ok []

/-- `CompletionProvider::process_completions` (`completion/mod.rs` lines
77-99): the library classifier; unlike `Backend::completion`, the
bare-colon check runs unconditionally after the jet check, so a prefix
ending in a bare colon yields `none`. -/
def process_completions (cp : CompletionProvider) (pfx : String)
    (functions : List Function) : Option (List String) :=
  let jetHit :=
    match rsplitNext pfx with
    | some last => last == "jet::" || startsWithS last "jet::"
    | none => false
  if jetHit then some cp.jets
  else if endsWithS pfx ":" then none
  else some (get_function_completions functions ++ cp.builtin ++ cp.modules)

/-- `Backend::goto_definition` (`backend.rs` lines 207-241): look up the
document, convert the cursor to a zero-width span, resolve the enclosing
call, and emit a location only for a `Custom` call whose name is found
among the document's functions, with the translated declaration span. -/
def goto_definition (st : Store) (uri : String) (pos : LspPos) :
    Option (String × (LspPos × LspPos)) :=
  match st uri with
  | none => none
  | some doc =>
    match positions_to_span (pos, pos) with
    | .error _ => none
    | .ok tokenSpan =>
      match find_related_call doc.functions tokenSpan with
      | none => none
      | some (n, _) =>
        match n with
        | .custom f =>
          match doc.functions.find? (fun g => g.name == f) with
          | none => none
          | some fn =>
            match span_to_positions fn.span with
            | .error _ => none
            | .ok (s, en) => some (uri, (s, en))
        | _ => none

/-- The separator-and-line contribution of each line after the first, under
the reflow rule stated by the specification: a newline before a block line
or after a block line, a single joining space between two prose lines.
`prevBlock` is whether the previous collected line was block-classified. -/
def reflowRest (prevBlock : Bool) : List String → List Char
  | [] => []
  | l :: ls =>
    (if prevBlock || isMdBlock (trimS l) then '\n' :: (trimS l).data
     else ' ' :: (trimS l).data)
    ++ reflowRest (isMdBlock (trimS l)) ls

/-- The reflow behaviour exactly as the specification states it: the very
first collected line is emitted without a leading separator, and every
later line is preceded by the separator of `reflowRest`. -/
def reflowClaim : List String → String
  | [] => ""
  | l :: ls => ⟨(trimS l).data ++ reflowRest (isMdBlock (trimS l)) ls⟩

/-- The reflow behaviour as the code actually implements it: lines are
emitted without a leading separator for as long as the accumulated output
is still empty — i.e. leading collected lines that trim to the empty string
vanish — and from the first line with visible content onwards the
separators of `reflowRest` apply. -/
def reflowSpec (lines : List String) : String :=
  match lines.dropWhile (fun l => (trimS l).data.isEmpty) with
  | [] => ""
  | l :: ls => ⟨(trimS l).data ++ reflowRest (isMdBlock (trimS l)) ls⟩

/-- The split of a string always yields at least one (possibly empty)
segment, exactly like Rust's `str::split` iterator. -/
theorem splitChars_ne_nil (p : Char → Bool) (cs : List Char) :
    splitChars p cs ≠ [] := by
  induction cs with
  | nil => simp [splitChars]
  | cons c cs ih =>
    unfold splitChars
    by_cases h : p c
    · simp [h]
    · simp only [h]
      cases hs : splitChars p cs with
      | nil => simp
      | cons g gs => simp

/-- `rsplit(..).next()` is `some` on every input string: the `else` branch
of the classifier in `Backend::completion` is unreachable. -/
theorem rsplitNext_isSome (s : String) : (rsplitNext s).isSome = true := by
  unfold rsplitNext
  rw [List.getLast?_isSome]
  simp only [ne_eq, List.map_eq_nil_iff]
  exact splitChars_ne_nil isSepChar s.data

/-- Wrapping `u32` decrement is the exact decrement on representable
positive values. -/
theorem u32Sub1_eq {x : Nat} (h0 : 0 < x) (hM : x < U32_MOD) :
    u32Sub1 x = x - 1 := by
  unfold u32Sub1
  have hM1 : 1 ≤ U32_MOD := by decide
  have hx : x + (U32_MOD - 1) = (x - 1) + U32_MOD := by omega
  rw [hx, Nat.add_mod_right, Nat.mod_eq_of_lt (by omega)]

/-- The document and store used as the concrete failing input of claim C1:
a stored document whose only line is `foo:`, with the cursor at its end. -/
def c1Doc : Document := ⟨[], fun _ => none, "foo:"⟩

/-- The store of the C1 failing input. -/
def c1Store : Store := fun u => if u = "file" then some c1Doc else none

/-- Claim C1: the claim states that a completion prefix whose trimmed form
ends with a bare colon not forming the jet namespace (such as `foo:`)
yields an empty candidate list.  The served code path disagrees: the rsplit
of the classifier always yields a segment, so the bare-colon branch of
`Backend::completion` is unreachable and the request for the prefix `foo:`
is answered with the (non-empty) General set — while the library
classifier `process_completions`, which the claim also cites, does return
`none` on the same prefix. -/
theorem c1_bare_colon_served_general_set :
    (∀ s : String, (rsplitNext s).isSome = true) ∧
    backendCompletion (CompletionProvider.new [] []) c1Store "file" ⟨0, 4⟩ =
      .ok ["jet", "param", "witness"] ∧
    process_completions (CompletionProvider.new [] []) "foo:" [] = none ∧
    (["jet", "param", "witness"] : List String) ≠ [] :=
  ⟨rsplitNext_isSome, rfl, rfl, by decide⟩

/-- Claim C4: converting an in-range editor position to a zero-width span
and back reconstructs exactly the pair `(p, p)`. -/
theorem c4_position_span_roundtrip (p : LspPos)
    (hl : p.line + 1 < U32_MOD) (hc : p.character + 1 < U32_MOD) :
    ∃ sp, position_to_span p = .ok sp ∧ span_to_positions sp = .ok (p, p) := by
  refine ⟨⟨⟨p.line + 1, p.character + 1⟩, ⟨p.line + 1, p.character + 1⟩⟩, ?_, ?_⟩
  · unfold position_to_span
    simp only [Nat.mod_eq_of_lt hl, Nat.mod_eq_of_lt hc]
    simp
  · unfold span_to_positions
    have h1 : ¬ U32_MOD ≤ p.line + 1 := by omega
    have h2 : ¬ U32_MOD ≤ p.character + 1 := by omega
    simp only [h1, h2, if_false]
    rw [u32Sub1_eq (Nat.succ_pos _) hl, u32Sub1_eq (Nat.succ_pos _) hc]
    simp

/-- Witness for claim C4 at the concrete editor position `(2, 5)`. -/
theorem c4_witness :
    ∃ sp, position_to_span ⟨2, 5⟩ = .ok sp ∧
      span_to_positions sp = .ok (⟨2, 5⟩, ⟨2, 5⟩) :=
  c4_position_span_roundtrip ⟨2, 5⟩ (by decide) (by decide)

/-- Counterexample to claim C5: the documentation-start-line computation of
`create_document` (`u32::try_from(line).unwrap_or_default() - 1`) silently
clamps an overflowing 1-based start line to `0` and then wraps the
decrement: for the 1-based line `2^32 + 1` it produces `2^32 - 1` instead
of the exact converted value `2^32`, and raises no conversion error. -/
theorem c5_doc_start_line_wraps :
    doc_start_line 4294967297 = 4294967295 ∧
    (4294967297 : Nat) - 1 = 4294967296 ∧
    (4294967295 : Nat) ≠ 4294967296 := by
  refine ⟨by decide, by decide, by decide⟩

/-- Claim C5 as amended: the dedicated coordinate conversions
(`span_to_positions`, `position_to_span` and `positions_to_span`) produce
either the exact converted value or an explicit conversion error; but the
documentation-start-line computation of `create_document` is exact only on
representable lines and silently wraps every overflowing line to
`2^32 - 1`. -/
theorem c5_conversions_exact_or_error :
    (∀ s : Span, s.WF →
      (∃ msg, span_to_positions s = .error msg) ∨
      span_to_positions s = .ok
        (⟨s.start.line - 1, s.start.col - 1⟩,
         ⟨s.endP.line - 1, s.endP.col - 1⟩)) ∧
    (∀ p : LspPos, p.line < U32_MOD → p.character < U32_MOD →
      (∃ msg, position_to_span p = .error msg) ∨
      position_to_span p = .ok
        ⟨⟨p.line + 1, p.character + 1⟩, ⟨p.line + 1, p.character + 1⟩⟩) ∧
    (∀ ps : LspPos × LspPos, ps.1.line < U32_MOD → ps.1.character < U32_MOD →
      ps.2.line < U32_MOD → ps.2.character < U32_MOD →
      (∃ msg, positions_to_span ps = .error msg) ∨
      positions_to_span ps = .ok
        ⟨⟨ps.1.line + 1, ps.1.character + 1⟩,
         ⟨ps.2.line + 1, ps.2.character + 1⟩⟩) ∧
    (∀ n, 0 < n → n < U32_MOD → doc_start_line n = n - 1) ∧
    (∀ n, U32_MOD ≤ n → doc_start_line n = U32_MOD - 1) := by
  refine ⟨?_, ?_, ?_, ?_, ?_⟩
  · intro s hs
    by_cases h1 : U32_MOD ≤ s.start.line
    · exact .inl ⟨"line overflow", by simp [span_to_positions, h1]⟩
    · by_cases h2 : U32_MOD ≤ s.start.col
      · exact .inl ⟨"col overflow", by simp [span_to_positions, h1, h2]⟩
      · by_cases h3 : U32_MOD ≤ s.endP.line
        · exact .inl ⟨"line overflow", by simp [span_to_positions, h1, h2, h3]⟩
        · by_cases h4 : U32_MOD ≤ s.endP.col
          · exact .inl ⟨"col overflow", by simp [span_to_positions, h1, h2, h3, h4]⟩
          · refine .inr ?_
            simp only [span_to_positions, h1, h2, h3, h4, if_false]
            rw [u32Sub1_eq hs.1.1 (by omega), u32Sub1_eq hs.1.2 (by omega),
              u32Sub1_eq hs.2.1 (by omega), u32Sub1_eq hs.2.2 (by omega)]
  · intro p hl hc
    by_cases h1 : p.line + 1 = U32_MOD
    · refine .inl ⟨"start line must be non-zero", ?_⟩
      unfold position_to_span
      simp [h1]
    · by_cases h2 : p.character + 1 = U32_MOD
      · refine .inl ⟨"start column must be non-zero", ?_⟩
        unfold position_to_span
        have e1 : (p.line + 1) % U32_MOD = p.line + 1 := Nat.mod_eq_of_lt (by omega)
        simp [e1, h2, Nat.succ_ne_zero]
      · refine .inr ?_
        unfold position_to_span
        have e1 : (p.line + 1) % U32_MOD = p.line + 1 := Nat.mod_eq_of_lt (by omega)
        have e2 : (p.character + 1) % U32_MOD = p.character + 1 :=
          Nat.mod_eq_of_lt (by omega)
        simp [e1, e2]
  · intro ps h1 h2 h3 h4
    by_cases k1 : ps.1.line + 1 = U32_MOD
    · refine .inl ⟨"start line must be non-zero", ?_⟩
      unfold positions_to_span
      simp [k1]
    · have e1 : (ps.1.line + 1) % U32_MOD = ps.1.line + 1 :=
        Nat.mod_eq_of_lt (by omega)
      by_cases k2 : ps.1.character + 1 = U32_MOD
      · refine .inl ⟨"start column must be non-zero", ?_⟩
        unfold positions_to_span
        simp [e1, k2]
      · have e2 : (ps.1.character + 1) % U32_MOD = ps.1.character + 1 :=
          Nat.mod_eq_of_lt (by omega)
        by_cases k3 : ps.2.line + 1 = U32_MOD
        · refine .inl ⟨"end line must be non-zero", ?_⟩
          unfold positions_to_span
          simp [e1, e2, k3]
        · have e3 : (ps.2.line + 1) % U32_MOD = ps.2.line + 1 :=
            Nat.mod_eq_of_lt (by omega)
          by_cases k4 : ps.2.character + 1 = U32_MOD
          · refine .inl ⟨"end column must be non-zero", ?_⟩
            unfold positions_to_span
            simp [e1, e2, e3, k4]
          · have e4 : (ps.2.character + 1) % U32_MOD = ps.2.character + 1 :=
              Nat.mod_eq_of_lt (by omega)
            refine .inr ?_
            unfold positions_to_span
            simp [e1, e2, e3, e4]
  · intro n h0 hM
    unfold doc_start_line
    rw [if_pos hM]
    exact u32Sub1_eq h0 hM
  · intro n h
    unfold doc_start_line
    rw [if_neg (by omega)]
    decide

/-- Witness for the amended claim C5: the pair conversion at the concrete
in-range positions `((1,2),(3,4))`, and the documentation-start-line
computation at the concrete lines `5` and `2^32`. -/
theorem c5_witness :
    ((∃ msg, positions_to_span (⟨1, 2⟩, ⟨3, 4⟩) = .error msg) ∨
      positions_to_span (⟨1, 2⟩, ⟨3, 4⟩) = .ok ⟨⟨2, 3⟩, ⟨4, 5⟩⟩) ∧
    doc_start_line 5 = 4 ∧ doc_start_line 4294967296 = 4294967295 :=
  ⟨c5_conversions_exact_or_error.2.2.1 (⟨1, 2⟩, ⟨3, 4⟩)
      (by decide) (by decide) (by decide) (by decide),
   c5_conversions_exact_or_error.2.2.2.1 5 (by decide) (by decide),
   c5_conversions_exact_or_error.2.2.2.2 4294967296 (by decide)⟩

/-- Claim C10: a completion request against an unknown document, a line
index past the document's lines, or a character offset past the end of the
line is answered with a successful empty completion list. -/
theorem c10_unknown_inputs_yield_empty (cp : CompletionProvider) (st : Store)
    (uri : String) (pos : LspPos) :
    (st uri = none → backendCompletion cp st uri pos = .ok []) ∧
    (∀ doc, st uri = some doc → (ropeLines doc.text)[pos.line]? = none →
      backendCompletion cp st uri pos = .ok []) ∧
    (∀ doc line, st uri = some doc →
      (ropeLines doc.text)[pos.line]? = some line →
      line.data.length < pos.character →
      backendCompletion cp st uri pos = .ok []) := by
  refine ⟨?_, ?_, ?_⟩
  · intro h
    simp [backendCompletion, h]
  · intro doc h1 h2
    simp [backendCompletion, h1, h2]
  · intro doc line h1 h2 h3
    unfold backendCompletion
    simp only [h1, List.get?_eq_getElem?, h2]
    rw [if_neg (by omega)]

/-- Witness for claim C10: the empty store answers with the empty list. -/
theorem c10_witness :
    backendCompletion (CompletionProvider.new [] []) (fun _ => none) "u"
      ⟨0, 0⟩ = .ok [] :=
  (c10_unknown_inputs_yield_empty (CompletionProvider.new [] [])
    (fun _ => none) "u" ⟨0, 0⟩).1 rfl

/-- Claim C2: on an edit whose parse step fails, an existing document keeps
its `functions` and `functions_docs` unchanged and only its `text` field is
replaced; when no document exists, nothing is stored and subsequent
completion and goto-definition queries against the URI yield the empty
list and `none`. -/
theorem c2_parse_failure_preserves_symbols (fe : Frontend) (st : Store)
    (uri text : String) (e : RichError) (hp : fe.parse text = .error e) :
    (∀ doc, st uri = some doc →
      (on_change fe st uri text).1 uri =
        some { functions := doc.functions
               functions_docs := doc.functions_docs
               text := text }) ∧
    (st uri = none →
      (on_change fe st uri text).1 uri = none ∧
      (∀ cp pos,
        backendCompletion cp (on_change fe st uri text).1 uri pos = .ok []) ∧
      (∀ pos, goto_definition (on_change fe st uri text).1 uri pos = none)) := by
  have hpr : parse_program fe text = (some e, none) := by
    simp [parse_program, hp]
  constructor
  · intro doc hdoc
    simp [on_change, hpr, hdoc, storeInsert]
  · intro hnone
    have hst : (on_change fe st uri text).1 uri = none := by
      simp [on_change, hpr, hnone]
    refine ⟨hst, ?_, ?_⟩
    · intro cp pos
      simp [backendCompletion, hst]
    · intro pos
      simp [goto_definition, hst]

/-- The always-failing frontend used as the C2 witness input. -/
def c2FailFe : Frontend :=
  ⟨fun _ => .error ⟨⟨⟨1, 1⟩, ⟨1, 2⟩⟩, "parse error"⟩, fun _ _ => none⟩

/-- A store holding one document under `"u"`, the C2 witness input. -/
def c2Doc : Document :=
  ⟨[⟨"main", ⟨⟨1, 1⟩, ⟨1, 9⟩⟩, .other ⟨⟨1, 8⟩, ⟨1, 9⟩⟩ .nil⟩],
   fun n => if n = "main" then some "doc of main" else none, "fn main"⟩

/-- The C2 witness store. -/
def c2St : Store := fun u => if u = "u" then some c2Doc else none

/-- Witness for claim C2: after a failing edit, the stored document keeps
its functions and docs and carries the new text. -/
theorem c2_witness :
    (on_change c2FailFe c2St "u" "fn main(").1 "u" =
      some { functions := c2Doc.functions
             functions_docs := c2Doc.functions_docs
             text := "fn main(" } :=
  (c2_parse_failure_preserves_symbols c2FailFe c2St "u" "fn main("
    ⟨⟨⟨1, 1⟩, ⟨1, 2⟩⟩, "parse error"⟩ rfl).1 c2Doc rfl

/-- Claim C6: on an edit whose parse step succeeds but whose semantic
analysis fails, the brand-new document built from the syntactic parse
fully replaces any existing entry for the URI (other entries untouched),
and the semantic error is published as a positioned diagnostic. -/
theorem c6_semantic_failure_still_replaces (fe : Frontend) (st : Store)
    (uri text : String) (p : Program) (e : RichError) (s en : LspPos)
    (hp : fe.parse text = .ok p) (ha : fe.analyze p text = some e)
    (hs : span_to_positions e.span = .ok (s, en)) :
    (on_change fe st uri text).1 uri = some (create_document p text) ∧
    (∀ u, u ≠ uri → (on_change fe st uri text).1 u = st u) ∧
    (on_change fe st uri text).2 =
      [.publishDiagnostics uri [⟨s, en, e.message⟩]] := by
  have hpr : parse_program fe text = (some e, some (create_document p text)) := by
    simp [parse_program, hp, ha]
  refine ⟨?_, ?_, ?_⟩
  · simp [on_change, hpr, storeInsert]
  · intro u hu
    simp [on_change, hpr, storeInsert, hu]
  · simp [on_change, hpr, hs]

/-- The frontend of the C6 witness: parsing succeeds with the empty
programme and analysis reports a positioned error. -/
def c6Fe : Frontend :=
  ⟨fun _ => .ok ⟨[]⟩,
   fun _ _ => some ⟨⟨⟨1, 3⟩, ⟨1, 6⟩⟩, "semantic error"⟩⟩

/-- Witness for claim C6 on the empty store: the fresh document is stored
and the semantic diagnostic is published at the translated range. -/
theorem c6_witness :
    (on_change c6Fe (fun _ => none) "u" "t").1 "u" =
      some (create_document ⟨[]⟩ "t") ∧
    (on_change c6Fe (fun _ => none) "u" "t").2 =
      [.publishDiagnostics "u" [⟨⟨0, 2⟩, ⟨0, 5⟩, "semantic error"⟩]] :=
  ⟨(c6_semantic_failure_still_replaces c6Fe (fun _ => none) "u" "t" ⟨[]⟩
      ⟨⟨⟨1, 3⟩, ⟨1, 6⟩⟩, "semantic error"⟩ ⟨0, 2⟩ ⟨0, 5⟩ rfl rfl rfl).1,
   (c6_semantic_failure_still_replaces c6Fe (fun _ => none) "u" "t" ⟨[]⟩
      ⟨⟨⟨1, 3⟩, ⟨1, 6⟩⟩, "semantic error"⟩ ⟨0, 2⟩ ⟨0, 5⟩ rfl rfl rfl).2.2⟩

/-- The pre-order-ordered sequence of call nodes of a function's body whose
spans contain the target span (the filtered sequence of step 3 of the
resolver). -/
def callsContaining (f : Function) (ts : Span) : List (CallName × Span) :=
  ((preOrder f.body).filterMap exprCallInfo).filter
    (fun c => span_contains c.2 ts)

/-- The span of the call to `h` in the C3 nested example `f(g(h(x)))`. -/
def c3HSpan : Span := ⟨⟨1, 5⟩, ⟨1, 10⟩⟩

/-- The body `f(g(h(x)))` of the C3 nested example, with each call's span
strictly inside its parent's. -/
def c3Body : Expr :=
  .call (.custom "f") ⟨⟨1, 1⟩, ⟨1, 14⟩⟩ (.cons
    (.call (.custom "g") ⟨⟨1, 3⟩, ⟨1, 12⟩⟩ (.cons
      (.call (.custom "h") c3HSpan (.cons
        (.other ⟨⟨1, 7⟩, ⟨1, 7⟩⟩ .nil) .nil)) .nil)) .nil)

/-- The function declaration holding the C3 nested example body. -/
def c3Fn : Function := ⟨"main", ⟨⟨1, 1⟩, ⟨1, 20⟩⟩, c3Body⟩

/-- The C3 target span: a zero-width point inside `h`'s argument. -/
def c3Target : Span := ⟨⟨1, 7⟩, ⟨1, 7⟩⟩

/-- Claim C3: the resolver selects a function whose span contains the
target (none when no function's span does), then returns the last element
of the pre-order-ordered filtered call sequence of its body; in the nested
example `f(g(h(x)))` with the target inside `h`'s argument it resolves the
call to `h`, not `f` or `g`. -/
theorem c3_innermost_call_resolution :
    (∀ (fs : List Function) (ts : Span),
      fs.find? (fun f => span_contains f.span ts) = none →
      find_related_call fs ts = none) ∧
    (∀ (fs : List Function) (ts : Span) (f : Function),
      fs.find? (fun f => span_contains f.span ts) = some f →
      find_related_call fs ts = (callsContaining f ts).getLast?) ∧
    find_related_call [c3Fn] c3Target = some (.custom "h", c3HSpan) := by
  refine ⟨?_, ?_, rfl⟩
  · intro fs ts h
    simp [find_related_call, h]
  · intro fs ts f h
    simp [find_related_call, h, callsContaining]

/-- Witness for claim C3: an empty function list resolves no call, and the
nested example resolves to the innermost call. -/
theorem c3_witness :
    find_related_call [] c3Target = none :=
  c3_innermost_call_resolution.1 [] c3Target rfl

/-- Claim C9: a goto-definition location is emitted only when the resolved
call is a user-defined (`Custom`) reference whose name is found among the
document's functions, and then its range is the translated declaration
span and its URI the queried URI; a resolved jet, builtin or cast call, and
an unresolved position, yield `none`. -/
theorem c9_goto_definition_characterisation (st : Store) (uri : String)
    (pos : LspPos) :
    (∀ u r, goto_definition st uri pos = some (u, r) →
      u = uri ∧ ∃ doc ts f cs fn,
        st uri = some doc ∧
        positions_to_span (pos, pos) = .ok ts ∧
        find_related_call doc.functions ts = some (.custom f, cs) ∧
        doc.functions.find? (fun g => g.name == f) = some fn ∧
        span_to_positions fn.span = .ok r) ∧
    (∀ doc ts n cs, st uri = some doc →
      positions_to_span (pos, pos) = .ok ts →
      find_related_call doc.functions ts = some (n, cs) →
      (∀ f, n ≠ .custom f) →
      goto_definition st uri pos = none) ∧
    (∀ doc ts, st uri = some doc →
      positions_to_span (pos, pos) = .ok ts →
      find_related_call doc.functions ts = none →
      goto_definition st uri pos = none) := by
  refine ⟨?_, ?_, ?_⟩
  · intro u r h
    cases hst : st uri with
    | none => simp [goto_definition, hst] at h
    | some doc =>
      cases hts : positions_to_span (pos, pos) with
      | error msg => simp [goto_definition, hst, hts] at h
      | ok ts =>
        cases hfrc : find_related_call doc.functions ts with
        | none => simp [goto_definition, hst, hts, hfrc] at h
        | some ncs =>
          obtain ⟨n, cs⟩ := ncs
          cases n with
          | jet g => simp [goto_definition, hst, hts, hfrc] at h
          | typeCast g => simp [goto_definition, hst, hts, hfrc] at h
          | builtin g => simp [goto_definition, hst, hts, hfrc] at h
          | custom f =>
            cases hfind : doc.functions.find? (fun g => g.name == f) with
            | none => simp [goto_definition, hst, hts, hfrc, hfind] at h
            | some fn =>
              cases hspan : span_to_positions fn.span with
              | error msg =>
                simp [goto_definition, hst, hts, hfrc, hfind, hspan] at h
              | ok sen =>
                obtain ⟨s, en⟩ := sen
                simp only [goto_definition, hst, hts, hfrc, hfind, hspan,
                  Option.some.injEq, Prod.mk.injEq] at h
                obtain ⟨hu, hr⟩ := h
                refine ⟨hu.symm, doc, ts, f, cs, fn, rfl, rfl, hfrc, hfind, ?_⟩
                rw [hspan, hr]
  · intro doc ts n cs h1 h2 h3 h4
    cases n with
    | custom g => exact absurd rfl (h4 g)
    | jet g => simp [goto_definition, h1, h2, h3]
    | typeCast g => simp [goto_definition, h1, h2, h3]
    | builtin g => simp [goto_definition, h1, h2, h3]
  · intro doc ts h1 h2 h3
    simp [goto_definition, h1, h2, h3]

/-- The C9 witness document: a `main` whose body calls the jet `add_32`. -/
def c9JetDoc : Document :=
  ⟨[⟨"main", ⟨⟨1, 1⟩, ⟨1, 30⟩⟩,
     .call (.jet "add_32") ⟨⟨1, 10⟩, ⟨1, 20⟩⟩ .nil⟩],
   fun _ => none, "fn main"⟩

/-- The C9 witness store. -/
def c9JetStore : Store := fun u => if u = "u" then some c9JetDoc else none

/-- Witness for claim C9: a cursor on a jet call yields no location. -/
theorem c9_witness : goto_definition c9JetStore "u" ⟨0, 11⟩ = none :=
  (c9_goto_definition_characterisation c9JetStore "u" ⟨0, 11⟩).2.1
    c9JetDoc ⟨⟨1, 12⟩, ⟨1, 12⟩⟩ (.jet "add_32") ⟨⟨1, 10⟩, ⟨1, 20⟩⟩
    rfl rfl rfl (fun _f h => CallName.noConfusion h)

/-- A line that is not block-classified has visible content: the emptiness
test is the first disjunct of the block test. -/
theorem isMdBlock_false_nonempty {t : String} (h : isMdBlock t = false) :
    t.data.isEmpty = false := by
  unfold isMdBlock at h
  simp only [Bool.or_eq_false_iff] at h
  exact h.1.1.1.1.1.1

/-- Once the reflow buffer is non-empty, the loop emits exactly the
separator-prefixed contributions of `reflowRest`: a newline around block
lines, a joining space between prose lines. -/
theorem reflowGo_of_ne_nil (ls : List String) :
    ∀ (res : List Char) (pb : Bool), res ≠ [] →
    reflowGo res (!pb) ls = res ++ reflowRest pb ls := by
  induction ls with
  | nil =>
    intro res pb _
    simp [reflowGo, reflowRest]
  | cons l ls ih =>
    intro res pb h
    have hres : res.isEmpty = false := by
      cases res with
      | nil => exact absurd rfl h
      | cons c cs => rfl
    unfold reflowGo reflowRest
    simp only [hres, Bool.false_eq_true, if_false]
    cases hb : isMdBlock (trimS l) with
    | true =>
      have hflag : (!(trimS l).data.isEmpty && !true) = !true := by simp
      have hcond : (!pb && !true) = false := by simp
      simp only [hb, hcond, Bool.false_eq_true, if_false, hflag]
      rw [ih (res ++ '\n' :: (trimS l).data) true (by simp)]
      simp [List.append_assoc]
    | false =>
      have ht : (trimS l).data.isEmpty = false := isMdBlock_false_nonempty hb
      have hflag : (!(trimS l).data.isEmpty && !false) = !false := by simp [ht]
      cases pb with
      | true =>
        have hcond : (!true && !false) = false := by simp
        simp only [hb, hcond, Bool.false_eq_true, if_false, hflag]
        rw [ih (res ++ '\n' :: (trimS l).data) false (by simp)]
        simp [List.append_assoc]
      | false =>
        have hcond : (!false && !false) = true := by simp
        simp only [hb, hcond, if_true, hflag]
        rw [ih (res ++ ' ' :: (trimS l).data) false (by simp)]
        simp [List.append_assoc]

/-- Claim C7 as amended: the reflow loop realises the claimed separator
rule — block lines and lines following block lines start on a new output
line, consecutive prose lines are joined with a single space — except that
a line is emitted without any leading separator for as long as the
accumulated output is still empty, so collected lines that trim to the
empty string before the first visible line contribute nothing. -/
theorem c7_reflow_eq_reflowSpec (lines : List String) :
    reflow lines = reflowSpec lines := by
  induction lines with
  | nil => rfl
  | cons l ls ih =>
    by_cases he : (trimS l).data.isEmpty = true
    · have hdata : (trimS l).data = [] := by
        cases hd : (trimS l).data with
        | nil => rfl
        | cons c cs => rw [hd] at he; exact absurd he (by simp)
      have h1 : reflow (l :: ls) = reflow ls := by
        show (⟨reflowGo [] false (l :: ls)⟩ : String) = ⟨reflowGo [] false ls⟩
        congr 1
        simp only [reflowGo]
        simp [hdata]
      have h2 : reflowSpec (l :: ls) = reflowSpec ls := by
        unfold reflowSpec
        rw [List.dropWhile_cons]
        simp [he]
      rw [h1, ih, h2]
    · have hne : (trimS l).data ≠ [] := by
        intro hc
        exact he (by simp [hc])
      have hstep : reflow (l :: ls) =
          ⟨(trimS l).data ++ reflowRest (isMdBlock (trimS l)) ls⟩ := by
        unfold reflow reflowGo
        simp only [List.isEmpty_nil, if_true, List.nil_append]
        have hflag : (!(trimS l).data.isEmpty && !isMdBlock (trimS l)) =
            !isMdBlock (trimS l) := by
          simp [he]
        rw [hflag, reflowGo_of_ne_nil ls (trimS l).data (isMdBlock (trimS l)) hne]
      rw [hstep]
      unfold reflowSpec
      rw [List.dropWhile_cons]
      simp [he]

/-- Counterexample to claim C7: on the collected lines `["", "b"]` (the
collection produced by a blank `///` line followed by `/// b`), the code
emits `"b"`, while the claimed rule — first line without separator, a line
after a block line on a new output line — prescribes `"\nb"`. -/
theorem c7_counterexample :
    reflow ["", "b"] = "b" ∧ reflowClaim ["", "b"] = "\nb" ∧
    reflow ["", "b"] ≠ reflowClaim ["", "b"] := by
  refine ⟨rfl, rfl, ?_⟩
  intro hc
  have : ("b" : String) = "\nb" := hc
  simp at this

/-- The extracted documentation of a function, computed against a given
text buffer (the per-function computation of `create_document`). -/
def functionDocOf (text : String) (f : Function) : String :=
  get_comments_from_lines (doc_start_line f.span.start.line) (ropeLines text)

/-- Folding the per-function step of `create_document` updates the
documentation map so that, for every name, the stored entry is the one of
the last function with that name, and names never declared keep their
initial entry. -/
theorem create_docs_foldl (fs : List Function) :
    ∀ (d : Document) (name : String),
    (fs.foldl createStep d).functions_docs name =
      match (fs.filter (fun f => f.name == name)).getLast? with
      | some f => some (functionDocOf d.text f)
      | none => d.functions_docs name := by
  induction fs with
  | nil =>
    intro d name
    rfl
  | cons f fs ih =>
    intro d name
    rw [List.foldl_cons, ih (createStep d f) name]
    have htext : (createStep d f).text = d.text := rfl
    have hdocs : (createStep d f).functions_docs name =
        if name = f.name then some (functionDocOf d.text f)
        else d.functions_docs name := rfl
    rw [htext, List.filter_cons]
    by_cases hf : (f.name == name) = true
    · rw [if_pos hf]
      have hname : name = f.name := (eq_of_beq hf).symm
      cases hfl : fs.filter (fun g => g.name == name) with
      | nil =>
        simp only [hfl, List.getLast?_singleton, List.getLast?_nil, hdocs,
          if_pos hname]
      | cons g gs =>
        simp only [hfl, List.getLast?_cons_cons]
        cases hgl : (g :: gs).getLast? with
        | none =>
          exact absurd (List.getLast?_eq_none_iff.mp hgl) (List.cons_ne_nil g gs)
        | some x => rfl
    · rw [if_neg hf]
      have hname : ¬ name = f.name := fun hc => hf (by rw [hc]; exact beq_self_eq_true _)
      cases hgl : (fs.filter (fun g => g.name == name)).getLast? with
      | none => simp only [hgl, hdocs, if_neg hname]
      | some x => simp only [hgl]

/-- Claim C8: after a successful parse, the documentation map holds exactly
the declared function names as keys, and a name declared several times maps
to the documentation extracted for the last declaration in file order. -/
theorem c8_function_docs_last_write_wins (p : Program) (text name : String) :
    (create_document p text).functions_docs name =
      ((functionItems p).filter (fun f => f.name == name)).getLast?.map
        (functionDocOf text) ∧
    (((create_document p text).functions_docs name).isSome = true ↔
      name ∈ (functionItems p).map Function.name) := by
  have h := create_docs_foldl (functionItems p)
    { functions := [], functions_docs := fun _ => none, text := text } name
  have hmain : (create_document p text).functions_docs name =
      ((functionItems p).filter (fun f => f.name == name)).getLast?.map
        (functionDocOf text) := by
    rw [create_document, h]
    cases hfl : ((functionItems p).filter (fun f => f.name == name)).getLast? with
    | none => rfl
    | some f => rfl
  refine ⟨hmain, ?_⟩
  rw [hmain, Option.isSome_map']
  rw [List.getLast?_isSome, ne_eq, List.filter_eq_nil_iff]
  simp only [List.mem_map, not_forall, not_not, beq_iff_eq]
  constructor
  · rintro ⟨f, hmem, hfn⟩
    exact ⟨f, hmem, hfn⟩
  · rintro ⟨f, hmem, hfn⟩
    exact ⟨f, hmem, hfn⟩

/-- Witness for the amended claim C7 on a concrete prose/heading mix. -/
theorem c7_witness :
    reflow ["This is a test.", "# Title", "It has two lines."] =
      reflowSpec ["This is a test.", "# Title", "It has two lines."] :=
  c7_reflow_eq_reflowSpec ["This is a test.", "# Title", "It has two lines."]

/-- A programme with two declarations of the same function name `f`, used
as the C8 witness input. -/
def c8P : Program :=
  ⟨[.function ⟨"f", ⟨⟨2, 1⟩, ⟨2, 10⟩⟩, .other ⟨⟨2, 5⟩, ⟨2, 6⟩⟩ .nil⟩,
    .function ⟨"f", ⟨⟨5, 1⟩, ⟨5, 10⟩⟩, .other ⟨⟨5, 5⟩, ⟨5, 6⟩⟩ .nil⟩]⟩

/-- The text of the C8 witness: each `f` declaration carries its own doc. -/
def c8Text : String := "/// d1\nfn f\n\n/// d2\nfn f"

/-- Witness for claim C8 at the duplicate-name programme: the stored entry
for `f` is the one extracted for the later declaration. -/
theorem c8_witness :
    (create_document c8P c8Text).functions_docs "f" =
      ((functionItems c8P).filter (fun f => f.name == "f")).getLast?.map
        (functionDocOf c8Text) :=
  (c8_function_docs_last_write_wins c8P c8Text "f").1
